import Mathlib

/-!
Verification of the orchestration core of the CodeForge-AI backend.

Shallow embedding of:
- `app/agents/core/resilience.py` (CircuitBreaker, resilient_llm_call)
- `app/services/job_queue.py` (Job, InMemoryJobStore)
- `app/schemas/protocol.py` (JobStatusType)
- `app/agents/graph/nodes.py` (should_retry_code, code_node iteration logic)
- `app/api/endpoints/agents.py` (cancel_job status update)

Python floats (delays, timestamps, progress) are modelled as rationals;
Python `datetime` values are modelled as abstract ticks (`Nat`), with
`isoformat`/`fromisoformat` modelled as a concrete injective decimal
rendering together with its parser, standing for the stdlib ISO-8601
codec (an inverse pair external to this repository).
-/

/-- `CircuitState` from `resilience.py`: CLOSED / OPEN / HALF_OPEN. -/
inductive CircuitState where
  | CLOSED
  | OPEN
  | HALF_OPEN
deriving DecidableEq, Repr

/-- Constructor arguments of `CircuitBreaker.__init__` (defaults:
threshold 5, recovery 60.0 s, 2 half-open probes). -/
structure BreakerConfig where
  failure_threshold : Nat := 5
  recovery_timeout : ℚ := 60
  half_open_max_calls : Nat := 2
deriving DecidableEq, Repr

/-- Mutable fields of a `CircuitBreaker` instance.  `last_failure_time`
holds the `time.monotonic()` reading of the most recent failure. -/
structure BreakerState where
  state : CircuitState
  failure_count : Nat
  last_failure_time : Option ℚ
  half_open_calls : Nat
deriving DecidableEq, Repr

/-- The state set by `CircuitBreaker.__init__`. -/
def BreakerState.initial : BreakerState :=
  { state := CircuitState.CLOSED
    failure_count := 0
    last_failure_time := none
    half_open_calls := 0 }

namespace CircuitBreaker

/-- `CircuitBreaker._check_state_transition`: OPEN lazily becomes
HALF_OPEN (with the probe counter cleared) once `recovery_timeout`
seconds have elapsed since the last failure. -/
def check_state_transition (cfg : BreakerConfig) (s : BreakerState) (now : ℚ) :
    BreakerState :=
  match s.state, s.last_failure_time with
  | CircuitState.OPEN, some t =>
      if now - t ≥ cfg.recovery_timeout then
        { s with state := CircuitState.HALF_OPEN, half_open_calls := 0 }
      else s
  | _, _ => s

/-- Result of one `CircuitBreaker.call`:
`rejected` — `CircuitBreakerError` raised, wrapped function never invoked;
`ok` — function invoked and its result returned;
`errored` — function invoked, raised, and the exception re-raised. -/
inductive CallResult where
  | rejected
  | ok
  | errored
deriving DecidableEq, Repr

/-- `CircuitBreaker.call`.  The wrapped coroutine is abstracted by its
outcome `funcSucceeds`; `now` abstracts `time.monotonic()` for this call.
Returns the call result together with the breaker state after the
post-call bookkeeping. -/
def call (cfg : BreakerConfig) (s : BreakerState) (now : ℚ)
    (funcSucceeds : Bool) : CallResult × BreakerState :=
  let s1 := check_state_transition cfg s now
  if s1.state = CircuitState.OPEN then
    (CallResult.rejected, s1)
  else if s1.state = CircuitState.HALF_OPEN ∧
      s1.half_open_calls ≥ cfg.half_open_max_calls then
    (CallResult.rejected, s1)
  else
    let s2 := if s1.state = CircuitState.HALF_OPEN then
        { s1 with half_open_calls := s1.half_open_calls + 1 }
      else s1
    if funcSucceeds then
      (CallResult.ok,
        { s2 with
            state := CircuitState.CLOSED
            failure_count := 0
            half_open_calls := 0 })
    else
      let s3 := { s2 with
          failure_count := s2.failure_count + 1
          last_failure_time := some now }
      if s2.state = CircuitState.HALF_OPEN then
        (CallResult.errored, { s3 with state := CircuitState.OPEN })
      else if s3.failure_count ≥ cfg.failure_threshold then
        (CallResult.errored, { s3 with state := CircuitState.OPEN })
      else
        (CallResult.errored, s3)

/-- A run of consecutive failed calls, one per timestamp in `times`,
threading the breaker state. -/
def applyFailures (cfg : BreakerConfig) (s : BreakerState)
    (times : List ℚ) : BreakerState :=
  times.foldl (fun st t => (call cfg st t false).2) s

end CircuitBreaker

/-- Outcome of one invocation of the wrapped LLM coroutine inside
`resilient_llm_call`, as seen through `cb.call`:
`success` — the call returned; `transientErr` — it raised an exception
classified transient by `_is_transient_error`; `permanentErr` — it raised
a non-transient exception; `breakerOpen` — `cb.call` raised
`CircuitBreakerError` without invoking the coroutine. -/
inductive AttemptOutcome where
  | success
  | transientErr
  | permanentErr
  | breakerOpen
deriving DecidableEq, Repr

/-- What `resilient_llm_call` finally does: return a result, re-raise a
classified error, or reach the `raise last_exception` line with
`last_exception = None` (only possible when `max_retries = 0`, where the
retry loop body never runs). -/
inductive RetryOutcome where
  | ok
  | raisedTransient
  | raisedPermanent
  | raisedBreakerOpen
  | raisedNone
deriving DecidableEq, Repr

/-- Observable trace of one `resilient_llm_call` execution: how many
loop iterations ran (= attempts of `cb.call`), the `asyncio.sleep`
durations in order, and the final outcome. -/
structure RetryTrace where
  attempts : Nat
  delays : List ℚ
  outcome : RetryOutcome
deriving DecidableEq, Repr

/-- The computed (pre-jitter) backoff for a given attempt:
`min(base_delay * 2 ** (attempt - 1), max_delay)`. -/
def backoffDelay (base_delay max_delay : ℚ) (attempt : Nat) : ℚ :=
  min (base_delay * 2 ^ (attempt - 1)) max_delay

/-- Body of the `for attempt in range(1, max_retries + 1)` loop of
`resilient_llm_call`, from iteration `attempt` onwards.  `outcomes a`
abstracts what happens at attempt `a`; `jitter a` abstracts the draw of
`random.uniform(0, delay * 0.3)` before the sleep that follows attempt
`a`.  The guard `max_retries ≤ attempt` renders `attempt == max_retries`
under the loop invariant `attempt ≤ max_retries`. -/
def resilientLoop (max_retries : Nat) (base_delay max_delay : ℚ)
    (outcomes : Nat → AttemptOutcome) (jitter : Nat → ℚ)
    (attempt : Nat) : RetryTrace :=
  match outcomes attempt with
  | AttemptOutcome.success => ⟨attempt, [], RetryOutcome.ok⟩
  | AttemptOutcome.breakerOpen => ⟨attempt, [], RetryOutcome.raisedBreakerOpen⟩
  | AttemptOutcome.permanentErr => ⟨attempt, [], RetryOutcome.raisedPermanent⟩
  | AttemptOutcome.transientErr =>
      if _h : max_retries ≤ attempt then
        ⟨attempt, [], RetryOutcome.raisedTransient⟩
      else
        let delay := backoffDelay base_delay max_delay attempt
        let wait_time := delay + jitter attempt
        let rest := resilientLoop max_retries base_delay max_delay
          outcomes jitter (attempt + 1)
        ⟨rest.attempts, wait_time :: rest.delays, rest.outcome⟩
termination_by max_retries - attempt

/-- `resilient_llm_call` (the retry layer; the per-call circuit-breaker
interaction is abstracted into `outcomes`).  With `max_retries = 0` the
loop body never runs and the function falls through to
`raise last_exception` with `last_exception` still `None`. -/
def resilient_llm_call (max_retries : Nat) (base_delay max_delay : ℚ)
    (outcomes : Nat → AttemptOutcome) (jitter : Nat → ℚ) : RetryTrace :=
  if max_retries = 0 then ⟨0, [], RetryOutcome.raisedNone⟩
  else resilientLoop max_retries base_delay max_delay outcomes jitter 1

/-- JSON-representable Python values (the `Any` payloads of
`input_context` and `result`).  `json.dumps`/`json.loads` is the
identity on these, which is the string layer of `Job.serialize` /
`Job.deserialize`; the embedding therefore works at this value level. -/
inductive JVal where
  | jnull
  | jbool (b : Bool)
  | jnum (q : ℚ)
  | jstr (s : String)
  | jarr (l : List JVal)
  | jobj (l : List (String × JVal))

/-- A Python `Dict[str, Any]` payload. -/
def JDict : Type := List (String × JVal)

/-- `JobStatusType` as defined in `app/schemas/protocol.py` (the file
under `src/`): exactly four members. -/
inductive JobStatusTypeSrc where
  | QUEUED
  | RUNNING
  | COMPLETED
  | FAILED
deriving DecidableEq, Repr

/-- The `.value` string of each `JobStatusTypeSrc` member. -/
def JobStatusTypeSrc.value : JobStatusTypeSrc → String
  | JobStatusTypeSrc.QUEUED => "queued"
  | JobStatusTypeSrc.RUNNING => "running"
  | JobStatusTypeSrc.COMPLETED => "completed"
  | JobStatusTypeSrc.FAILED => "failed"

/-- Python `JobStatusType(s)` for the enum in `src/`: the member with
value `s`, or `none` for the `ValueError` raised on any other string. -/
def JobStatusTypeSrc.ofValue? (s : String) : Option JobStatusTypeSrc :=
  if s = "queued" then some JobStatusTypeSrc.QUEUED
  else if s = "running" then some JobStatusTypeSrc.RUNNING
  else if s = "completed" then some JobStatusTypeSrc.COMPLETED
  else if s = "failed" then some JobStatusTypeSrc.FAILED
  else none

/-- Modelled from the spec: the six-member job-status enum.  The file
`app/schemas/protocol.py` under `src/` defines only the first four
members; `WAITING_FOR_INPUT` and `CANCELLED` are missing there although
`app/api/endpoints/agents.py` and `app/workers/tasks.py` reference
`JobStatusType.WAITING_FOR_INPUT` / `JobStatusType.CANCELLED` and
`tests/test_new_features.py` asserts that exactly these six values
exist.  The store is embedded over this six-member enum so that the
cancellation path is expressible. -/
inductive JobStatusType where
  | QUEUED
  | RUNNING
  | WAITING_FOR_INPUT
  | CANCELLED
  | COMPLETED
  | FAILED
deriving DecidableEq, Repr

/-- The `.value` string of each status. -/
def JobStatusType.value : JobStatusType → String
  | JobStatusType.QUEUED => "queued"
  | JobStatusType.RUNNING => "running"
  | JobStatusType.WAITING_FOR_INPUT => "waiting_for_input"
  | JobStatusType.CANCELLED => "cancelled"
  | JobStatusType.COMPLETED => "completed"
  | JobStatusType.FAILED => "failed"

/-- Python `JobStatusType(s)` over the six-member enum: the member with
value `s`, or `none` for the `ValueError`. -/
def JobStatusType.ofValue? (s : String) : Option JobStatusType :=
  if s = "queued" then some JobStatusType.QUEUED
  else if s = "running" then some JobStatusType.RUNNING
  else if s = "waiting_for_input" then some JobStatusType.WAITING_FOR_INPUT
  else if s = "cancelled" then some JobStatusType.CANCELLED
  else if s = "completed" then some JobStatusType.COMPLETED
  else if s = "failed" then some JobStatusType.FAILED
  else none

/-- Digit → character, for the datetime rendering: code point 48 is
the character for the digit zero. -/
def natDigitToChar (d : Nat) : Char :=
  Char.ofNat (48 + d)

/-- Character → digit, partial inverse of `natDigitToChar`. -/
def charToDigit? (c : Char) : Option Nat :=
  if 48 ≤ c.toNat ∧ c.toNat ≤ 57 then some (c.toNat - 48) else none

/-- `datetime.isoformat()`, with datetimes modelled as ticks: a concrete
injective textual rendering (most-significant-first decimal digits,
never empty) standing for the ISO-8601 string. -/
def isoformat (t : Nat) : String :=
  if t = 0 then "0"
  else ⟨((Nat.digits 10 t).reverse).map natDigitToChar⟩

/-- Parse a digit string back to the list of digits. -/
def parseDigits : List Char → Option (List Nat)
  | [] => some []
  | c :: cs =>
      match charToDigit? c, parseDigits cs with
      | some d, some ds => some (d :: ds)
      | _, _ => none

/-- `datetime.fromisoformat`, partial inverse of `isoformat`; `none`
models the `ValueError` raised on a malformed string. -/
def fromisoformat (s : String) : Option Nat :=
  match s.data with
  | [] => none
  | cs =>
      match parseDigits cs with
      | some ds => some (Nat.ofDigits 10 ds.reverse)
      | none => none

/-- The `Job` dataclass of `app/services/job_queue.py`.  Timestamps are
ticks (see module docstring); `progress` is a rational. -/
structure Job where
  job_id : String
  project_id : String
  agent_type : String
  status : JobStatusType := JobStatusType.QUEUED
  input_context : JDict := []
  result : Option JDict := none
  error : Option String := none
  progress : ℚ := 0
  created_at : Nat
  started_at : Option Nat := none
  completed_at : Option Nat := none

/-- `Job.is_complete`: `status in [COMPLETED, FAILED]` as written in
`src/` (note: `tests/test_new_features.py` expects `CANCELLED` to count
as complete as well, which this source does not implement). -/
def Job.is_complete (j : Job) : Bool :=
  j.status = JobStatusType.COMPLETED ∨ j.status = JobStatusType.FAILED

/-- The flat dictionary produced by `Job.to_dict` (and hence, through
`json.dumps`, by `Job.serialize`): enum as its value string, datetimes
as their rendered strings, payloads unchanged. -/
structure SerializedJob where
  job_id : String
  project_id : String
  agent_type : String
  status : String
  input_context : JDict
  result : Option JDict
  error : Option String
  progress : ℚ
  created_at : Option String
  started_at : Option String
  completed_at : Option String

/-- `Job.to_dict` / `Job.serialize`.  `created_at` is a dataclass field
that always holds a datetime (truthy), so its conditional always takes
the isoformat branch. -/
def Job.serialize (j : Job) : SerializedJob :=
  { job_id := j.job_id
    project_id := j.project_id
    agent_type := j.agent_type
    status := j.status.value
    input_context := j.input_context
    result := j.result
    error := j.error
    progress := j.progress
    created_at := some (isoformat j.created_at)
    started_at := j.started_at.map isoformat
    completed_at := j.completed_at.map isoformat }

/-- The `datetime.fromisoformat(d[k]) if d.get(k) else None` pattern of
`Job.deserialize`: a missing or empty (falsy) string yields `None`, a
non-empty string is parsed (outer `none` models the raised
`ValueError`). -/
def parseOptionalTs : Option String → Option (Option Nat)
  | none => some none
  | some s =>
      if s.data = [] then some none
      else (fromisoformat s).map some

/-- The `created_at` branch of `Job.deserialize`: a missing or falsy
value falls back to `datetime.utcnow()` (the `now` argument). -/
def parseCreatedAt (o : Option String) (now : Nat) : Option Nat :=
  match o with
  | none => some now
  | some s =>
      if s.data = [] then some now
      else fromisoformat s

/-- `Job.deserialize`: rebuild a `Job` from the parsed dictionary;
`none` models any exception (`ValueError` from the enum constructor or
from `fromisoformat`). -/
def Job.deserialize (d : SerializedJob) (now : Nat) : Option Job :=
  match JobStatusType.ofValue? d.status with
  | none => none
  | some st =>
      match parseCreatedAt d.created_at now with
      | none => none
      | some created =>
          match parseOptionalTs d.started_at with
          | none => none
          | some started =>
              match parseOptionalTs d.completed_at with
              | none => none
              | some completed =>
                  some
                    { job_id := d.job_id
                      project_id := d.project_id
                      agent_type := d.agent_type
                      status := st
                      input_context := d.input_context
                      result := d.result
                      error := d.error
                      progress := d.progress
                      created_at := created
                      started_at := started
                      completed_at := completed }

/-- The optional keyword arguments of `BaseJobStore.update_job`. -/
structure UpdateArgs where
  status : Option JobStatusType := none
  progress : Option ℚ := none
  result : Option JDict := none
  error : Option String := none

/-- The field mutations performed by `InMemoryJobStore.update_job`
(lines 162-178; `RedisJobStore.update_job` lines 275-291 apply the same
mutations to the deserialized copy before writing it back):
`if status:` is truthiness of an enum member — always true when the
argument is supplied, since every member's value is a non-empty string;
`if progress is not None:` clamps into [0, 100];
`if result is not None:` overwrites;
`if error:` is string truthiness — a supplied empty string is ignored,
otherwise the error is recorded, status forced to FAILED and
`completed_at` stamped. -/
def updateJobFields (j : Job) (a : UpdateArgs) (now : Nat) : Job :=
  let j1 :=
    match a.status with
    | none => j
    | some st =>
        let j' := { j with status := st }
        let j' := if st = JobStatusType.RUNNING ∧ j'.started_at = none then
            { j' with started_at := some now }
          else j'
        if j'.is_complete then { j' with completed_at := some now } else j'
  let j2 :=
    match a.progress with
    | none => j1
    | some p => { j1 with progress := max 0 (min 100 p) }
  let j3 :=
    match a.result with
    | none => j2
    | some r => { j2 with result := some r }
  match a.error with
  | none => j3
  | some e =>
      if e = "" then j3
      else
        { j3 with
            error := some e
            status := JobStatusType.FAILED
            completed_at := some now }

/-- `InMemoryJobStore`: `_jobs` as an association list (insertion
order), `_project_jobs` as the per-project id index. -/
structure InMemoryJobStore where
  jobs : List (String × Job) := []
  project_jobs : List (String × List String) := []

/-- Association-list lookup, Python `dict.get`. -/
def alistGet {α : Type} (l : List (String × α)) (k : String) : Option α :=
  match l with
  | [] => none
  | (k', v) :: rest => if k' = k then some v else alistGet rest k

/-- Association-list overwrite of the value at an existing key. -/
def alistSet {α : Type} (l : List (String × α)) (k : String) (v : α) :
    List (String × α) :=
  match l with
  | [] => []
  | (k', v') :: rest =>
      if k' = k then (k', v) :: rest else (k', v') :: alistSet rest k v

/-- `InMemoryJobStore.get_job`. -/
def InMemoryJobStore.get_job (store : InMemoryJobStore) (job_id : String) :
    Option Job :=
  alistGet store.jobs job_id

/-- `InMemoryJobStore.create_job`: builds a fresh `Job` with the
dataclass defaults (status QUEUED, progress 0, `created_at = utcnow()`)
and registers it in `_jobs` and `_project_jobs`. -/
def InMemoryJobStore.create_job (store : InMemoryJobStore)
    (job_id project_id agent_type : String) (input_context : JDict)
    (now : Nat) : Job × InMemoryJobStore :=
  let job : Job :=
    { job_id := job_id
      project_id := project_id
      agent_type := agent_type
      input_context := input_context
      created_at := now }
  let pj :=
    match alistGet store.project_jobs project_id with
    | none => store.project_jobs ++ [(project_id, [job_id])]
    | some ids => alistSet store.project_jobs project_id (ids ++ [job_id])
  (job, { jobs := store.jobs ++ [(job_id, job)], project_jobs := pj })

/-- `InMemoryJobStore.update_job`: missing job returns `None` without
touching the store; otherwise the job object in `_jobs` is mutated in
place and returned. -/
def InMemoryJobStore.update_job (store : InMemoryJobStore) (job_id : String)
    (a : UpdateArgs) (now : Nat) : Option Job × InMemoryJobStore :=
  match alistGet store.jobs job_id with
  | none => (none, store)
  | some job =>
      let job' := updateJobFields job a now
      (some job', { store with jobs := alistSet store.jobs job_id job' })

/-- Result of the `cancel_job` endpoint (`app/api/endpoints/agents.py`),
ownership check and Celery revocation aside:
`notFound` — `ResourceNotFoundError`; `invalidState` — the
`ValidationError` for a terminal (`is_complete`) job; `cancelled` — the
store update was applied.  The update passes `status=CANCELLED` together
with the job's current progress. -/
inductive CancelResult where
  | notFound
  | invalidState
  | cancelled
deriving DecidableEq, Repr

/-- `cancel_job` control flow over the job store. -/
def cancel_job (store : InMemoryJobStore) (job_id : String) (now : Nat) :
    CancelResult × InMemoryJobStore :=
  match store.get_job job_id with
  | none => (CancelResult.notFound, store)
  | some job =>
      if job.is_complete then (CancelResult.invalidState, store)
      else
        let r := store.update_job job_id
          { status := some JobStatusType.CANCELLED
            progress := some job.progress } now
        (CancelResult.cancelled, r.2)

/-- The `passed` entry of a QA result dictionary; `none` models a dict
without the key (so `q.get("passed", True)` yields the default). -/
structure QaDict where
  passed : Option Bool

/-- The slice of `AgentGraphState` read by `should_retry_code`.
`none` fields model keys absent from the `TypedDict` (every `state.get`
in the source supplies a default). -/
structure EdgeState where
  qa_result : Option QaDict := none
  iteration_count : Option Nat := none
  max_iterations : Option Nat := none

/-- `should_retry_code` (`app/agents/graph/nodes.py`): the conditional
edge after the qa node.  `state.get("qa_result", {})` followed by
`.get("passed", True)` treats a missing qa_result, or one without a
`passed` key, as passed. -/
def should_retry_code (s : EdgeState) : String :=
  let passed :=
    match s.qa_result with
    | none => true
    | some q => q.passed.getD true
  let iteration := s.iteration_count.getD 0
  let max_iter := s.max_iterations.getD 5
  if passed = false ∧ iteration < max_iter then "retry" else "end"

/-- The code ↔ qa segment of the builder pipeline
(`build_builder_pipeline`): `code_node` sets
`iteration_count = state.get("iteration_count", 0) + 1`, `qa_node`
stores `{"passed": qaPasses attempt, ...}` into `qa_result`, and the
conditional edge `should_retry_code` either loops back to code or ends.
Returns the final `iteration_count`.  `qaPasses a` abstracts the verdict
of the QA agent on attempt `a`. -/
def codeQaLoop (qaPasses : Nat → Bool) (max_iter count : Nat) : Nat :=
  if h : should_retry_code
      { qa_result := some { passed := some (qaPasses (count + 1)) }
        iteration_count := some (count + 1)
        max_iterations := some max_iter } = "retry" then
    codeQaLoop qaPasses max_iter (count + 1)
  else count + 1
termination_by max_iter - count
decreasing_by
  simp only [should_retry_code, Option.getD] at h
  split at h
  · rename_i hcond
    omega
  · simp at h

/-! ## Theorems -/

namespace CircuitBreaker

/-- One failed call in CLOSED: the wrapped operation is invoked, the
error re-raised, the counter incremented, and the circuit opened exactly
when the counter reaches the threshold. -/
lemma call_closed_fail (cfg : BreakerConfig) (fc : Nat) (lf : Option ℚ)
    (hoc : Nat) (now : ℚ) :
    call cfg ⟨CircuitState.CLOSED, fc, lf, hoc⟩ now false =
      (CallResult.errored,
        if cfg.failure_threshold ≤ fc + 1 then
          ⟨CircuitState.OPEN, fc + 1, some now, hoc⟩
        else
          ⟨CircuitState.CLOSED, fc + 1, some now, hoc⟩) := by
  simp only [call, check_state_transition]
  split_ifs with h1 h2 h3 h4 <;> simp_all

/-- A successful call in CLOSED: passes through and resets the failure
counter to zero. -/
lemma call_closed_ok (cfg : BreakerConfig) (fc : Nat) (lf : Option ℚ)
    (hoc : Nat) (now : ℚ) :
    call cfg ⟨CircuitState.CLOSED, fc, lf, hoc⟩ now true =
      (CallResult.ok, ⟨CircuitState.CLOSED, 0, lf, 0⟩) := by
  simp only [call, check_state_transition]
  split_ifs with h1 h2 <;> simp_all

/-- A successful probe in HALF_OPEN (within the probe budget): full
reset to CLOSED. -/
lemma call_half_open_ok (cfg : BreakerConfig) (fc : Nat) (lf : Option ℚ)
    (hoc : Nat) (now : ℚ) (hcalls : hoc < cfg.half_open_max_calls) :
    call cfg ⟨CircuitState.HALF_OPEN, fc, lf, hoc⟩ now true =
      (CallResult.ok, ⟨CircuitState.CLOSED, 0, lf, 0⟩) := by
  simp only [call, check_state_transition]
  split_ifs with h1 h2 <;> simp_all
  omega

/-- A failed probe in HALF_OPEN (within the probe budget): immediately
back to OPEN, no threshold accumulation. -/
lemma call_half_open_fail (cfg : BreakerConfig) (fc : Nat) (lf : Option ℚ)
    (hoc : Nat) (now : ℚ) (hcalls : hoc < cfg.half_open_max_calls) :
    call cfg ⟨CircuitState.HALF_OPEN, fc, lf, hoc⟩ now false =
      (CallResult.errored,
        ⟨CircuitState.OPEN, fc + 1, some now, hoc + 1⟩) := by
  simp only [call, check_state_transition]
  split_ifs with h1 h2 h3 <;> simp_all
  omega

/-- A run of failed calls starting CLOSED, with the counter staying
within the threshold: the breaker stays CLOSED strictly below the
threshold and is OPEN exactly when the run reaches it. -/
lemma applyFailures_closed (cfg : BreakerConfig) (times : List ℚ) :
    ∀ (fc : Nat) (lf : Option ℚ) (hoc : Nat),
      fc + times.length ≤ cfg.failure_threshold →
      (applyFailures cfg ⟨CircuitState.CLOSED, fc, lf, hoc⟩ times).state =
        (if fc + times.length = cfg.failure_threshold ∧ times ≠ []
          then CircuitState.OPEN else CircuitState.CLOSED) ∧
      (applyFailures cfg ⟨CircuitState.CLOSED, fc, lf, hoc⟩ times).failure_count =
        fc + times.length := by
  induction times with
  | nil =>
      intro fc lf hoc _
      simp [applyFailures]
  | cons t rest ih =>
      intro fc lf hoc hle
      simp only [List.length_cons] at hle
      have hstep : applyFailures cfg ⟨CircuitState.CLOSED, fc, lf, hoc⟩ (t :: rest) =
          applyFailures cfg
            (call cfg ⟨CircuitState.CLOSED, fc, lf, hoc⟩ t false).2 rest := rfl
      rw [hstep, call_closed_fail]
      simp only [List.length_cons]
      by_cases hth : cfg.failure_threshold ≤ fc + 1
      · have hrest : rest = [] := by
          cases rest with
          | nil => rfl
          | cons r rs =>
              simp only [List.length_cons] at hle
              omega
        subst hrest
        rw [if_pos hth]
        constructor
        · have hcond : fc + ([] : List ℚ).length + 1 = cfg.failure_threshold ∧
              (t :: ([] : List ℚ)) ≠ [] := by
            refine ⟨?_, by simp⟩
            simp only [List.length_nil]
            omega
          simp only [List.length_nil] at hcond ⊢
          rw [if_pos ⟨hcond.1, hcond.2⟩]
          simp [applyFailures]
        · simp [applyFailures]
      · rw [if_neg hth]
        obtain ⟨h1, h2⟩ := ih (fc + 1) (some t) hoc (by omega)
        constructor
        · rw [h1]
          by_cases hre : rest = []
          · subst hre
            simp only [List.length_nil]
            have hA : ¬(fc + 1 + 0 = cfg.failure_threshold ∧
                ([] : List ℚ) ≠ []) := by
              simp
            rw [if_neg hA]
            have hB : ¬(fc + (0 + 1) = cfg.failure_threshold ∧
                (t :: ([] : List ℚ)) ≠ []) := by
              intro h
              omega
            rw [if_neg hB]
          · by_cases hx : fc + 1 + rest.length = cfg.failure_threshold
            · rw [if_pos ⟨hx, hre⟩, if_pos ⟨by omega, by simp⟩]
            · rw [if_neg ?_, if_neg ?_]
              · intro h
                obtain ⟨h1', _⟩ := h
                apply hx
                omega
              · intro h
                exact hx h.1
        · rw [h2]
          omega

end CircuitBreaker

/-- C2: from a fresh breaker, exactly `failure_threshold` consecutive
failed calls open the circuit while any strictly shorter run leaves it
closed; a successful call in CLOSED resets the failure counter to zero;
a successful call in HALF_OPEN (within the probe budget) transitions to
CLOSED with the counter reset to 0; a failed call in HALF_OPEN
immediately transitions to OPEN without a fresh threshold run. -/
theorem C2_circuit_breaker_state_machine (cfg : BreakerConfig)
    (hth : 0 < cfg.failure_threshold) :
    (∀ times : List ℚ, times.length = cfg.failure_threshold →
      (CircuitBreaker.applyFailures cfg BreakerState.initial times).state =
        CircuitState.OPEN) ∧
    (∀ times : List ℚ, times.length < cfg.failure_threshold →
      (CircuitBreaker.applyFailures cfg BreakerState.initial times).state =
        CircuitState.CLOSED) ∧
    (∀ (fc : Nat) (lf : Option ℚ) (hoc : Nat) (now : ℚ),
      CircuitBreaker.call cfg ⟨CircuitState.CLOSED, fc, lf, hoc⟩ now true =
        (CircuitBreaker.CallResult.ok, ⟨CircuitState.CLOSED, 0, lf, 0⟩)) ∧
    (∀ (fc : Nat) (lf : Option ℚ) (hoc : Nat) (now : ℚ),
      hoc < cfg.half_open_max_calls →
      CircuitBreaker.call cfg ⟨CircuitState.HALF_OPEN, fc, lf, hoc⟩ now true =
        (CircuitBreaker.CallResult.ok, ⟨CircuitState.CLOSED, 0, lf, 0⟩)) ∧
    (∀ (fc : Nat) (lf : Option ℚ) (hoc : Nat) (now : ℚ),
      hoc < cfg.half_open_max_calls →
      CircuitBreaker.call cfg ⟨CircuitState.HALF_OPEN, fc, lf, hoc⟩ now false =
        (CircuitBreaker.CallResult.errored,
          ⟨CircuitState.OPEN, fc + 1, some now, hoc + 1⟩)) := by
  refine ⟨?_, ?_, ?_, ?_, ?_⟩
  · intro times hlen
    obtain ⟨h1, _⟩ := CircuitBreaker.applyFailures_closed cfg times 0 none 0
      (by omega)
    rw [BreakerState.initial, h1]
    have hne : times ≠ [] := by
      intro hnil
      subst hnil
      simp at hlen
      omega
    simp [hlen, hne]
  · intro times hlen
    obtain ⟨h1, _⟩ := CircuitBreaker.applyFailures_closed cfg times 0 none 0
      (by omega)
    rw [BreakerState.initial, h1]
    have hno : ¬(0 + times.length = cfg.failure_threshold ∧ times ≠ []) := by
      intro h
      omega
    rw [if_neg hno]
  · intro fc lf hoc now
    exact CircuitBreaker.call_closed_ok cfg fc lf hoc now
  · intro fc lf hoc now hcalls
    exact CircuitBreaker.call_half_open_ok cfg fc lf hoc now hcalls
  · intro fc lf hoc now hcalls
    exact CircuitBreaker.call_half_open_fail cfg fc lf hoc now hcalls

/-- Witness for C2 at the default configuration (threshold 5, two
half-open probes): five failures open a fresh breaker, four leave it
closed, and one successful probe from a concrete HALF_OPEN state closes
it with the counter reset. -/
theorem C2_circuit_breaker_state_machine_witness :
    0 < ({} : BreakerConfig).failure_threshold ∧
    (CircuitBreaker.applyFailures {} BreakerState.initial
        [0, 1, 2, 3, 4]).state = CircuitState.OPEN ∧
    (CircuitBreaker.applyFailures {} BreakerState.initial
        [0, 1, 2, 3]).state = CircuitState.CLOSED ∧
    CircuitBreaker.call {} ⟨CircuitState.HALF_OPEN, 5, some 4, 0⟩ 70 true =
      (CircuitBreaker.CallResult.ok, ⟨CircuitState.CLOSED, 0, some 4, 0⟩) :=
  ⟨by decide,
    (C2_circuit_breaker_state_machine {} (by decide)).1 [0, 1, 2, 3, 4]
      (by decide),
    (C2_circuit_breaker_state_machine {} (by decide)).2.1 [0, 1, 2, 3]
      (by decide),
    (C2_circuit_breaker_state_machine {} (by decide)).2.2.2.1 5 (some 4) 0 70
      (by decide)⟩

/-- C9: with the circuit OPEN and a recorded last failure, a call before
`recovery_timeout` has elapsed is rejected with the breaker-open error
and leaves the state untouched — uniformly in the behaviour `o` of the
wrapped operation, which is therefore never invoked; once the timeout
has elapsed, `_check_state_transition` moves the breaker to HALF_OPEN
(probe counter cleared) and the call behaves exactly as a call made in
that HALF_OPEN state. -/
theorem C9_open_fail_fast_and_lazy_half_open (cfg : BreakerConfig)
    (fc : Nat) (hoc : Nat) (t now : ℚ) (o : Bool) :
    (now - t < cfg.recovery_timeout →
      CircuitBreaker.call cfg ⟨CircuitState.OPEN, fc, some t, hoc⟩ now o =
        (CircuitBreaker.CallResult.rejected,
          ⟨CircuitState.OPEN, fc, some t, hoc⟩)) ∧
    (cfg.recovery_timeout ≤ now - t →
      CircuitBreaker.check_state_transition cfg
          ⟨CircuitState.OPEN, fc, some t, hoc⟩ now =
        ⟨CircuitState.HALF_OPEN, fc, some t, 0⟩ ∧
      CircuitBreaker.call cfg ⟨CircuitState.OPEN, fc, some t, hoc⟩ now o =
        CircuitBreaker.call cfg ⟨CircuitState.HALF_OPEN, fc, some t, 0⟩ now o) := by
  constructor
  · intro hlt
    simp only [CircuitBreaker.call, CircuitBreaker.check_state_transition]
    rw [if_neg (not_le.mpr hlt)]
    simp
  · intro hge
    have hcheck : CircuitBreaker.check_state_transition cfg
        ⟨CircuitState.OPEN, fc, some t, hoc⟩ now =
        ⟨CircuitState.HALF_OPEN, fc, some t, 0⟩ := by
      simp only [CircuitBreaker.check_state_transition]
      rw [if_pos hge]
    refine ⟨hcheck, ?_⟩
    have hcheck2 : CircuitBreaker.check_state_transition cfg
        ⟨CircuitState.HALF_OPEN, fc, some t, 0⟩ now =
        ⟨CircuitState.HALF_OPEN, fc, some t, 0⟩ := by
      simp [CircuitBreaker.check_state_transition]
    simp only [CircuitBreaker.call, hcheck, hcheck2]

/-- Witness for C9 at the default configuration: an OPEN breaker 10
seconds after its last failure rejects the call; 60 seconds after it,
the check transitions to HALF_OPEN and the call proceeds as from
HALF_OPEN. -/
theorem C9_open_fail_fast_and_lazy_half_open_witness :
    (CircuitBreaker.call {} ⟨CircuitState.OPEN, 5, some 0, 0⟩ 10 true =
      (CircuitBreaker.CallResult.rejected,
        ⟨CircuitState.OPEN, 5, some 0, 0⟩)) ∧
    (CircuitBreaker.check_state_transition {}
        ⟨CircuitState.OPEN, 5, some 0, 3⟩ 60 =
      ⟨CircuitState.HALF_OPEN, 5, some 0, 0⟩ ∧
      CircuitBreaker.call {} ⟨CircuitState.OPEN, 5, some 0, 3⟩ 60 true =
      CircuitBreaker.call {} ⟨CircuitState.HALF_OPEN, 5, some 0, 0⟩ 60 true) :=
  ⟨(C9_open_fail_fast_and_lazy_half_open {} 5 0 0 10 true).1 (by norm_num),
    (C9_open_fail_fast_and_lazy_half_open {} 5 3 0 60 true).2 (by norm_num)⟩

/-- C4: the conditional edge after the qa node routes back to code
("retry") iff qa_result is present with `passed` explicitly false and
`iteration_count < max_iterations`; in particular a missing qa_result,
or one without a `passed` key, is treated as passed and the edge
terminates ("end"). -/
theorem C4_should_retry_code_fail_open (s : EdgeState) :
    (should_retry_code s = "retry" ↔
      (∃ q, s.qa_result = some q ∧ q.passed = some false) ∧
        s.iteration_count.getD 0 < s.max_iterations.getD 5) ∧
    ((s.qa_result = none ∨
        (∃ q, s.qa_result = some q ∧ q.passed = none)) →
      should_retry_code s = "end") := by
  obtain ⟨qa, it, mi⟩ := s
  constructor
  · match qa with
    | none =>
        simp only [should_retry_code]
        simp
    | some q =>
        match hqp : q.passed with
        | none =>
            simp only [should_retry_code, hqp]
            simp [Option.getD, hqp]
        | some true =>
            simp only [should_retry_code, hqp]
            simp [Option.getD, hqp]
        | some false =>
            simp only [should_retry_code, hqp]
            by_cases hlt : it.getD 0 < mi.getD 5
            · simp [Option.getD, hqp, hlt]
            · simp [Option.getD, hqp, hlt]
  · intro hmiss
    match qa with
    | none =>
        simp only [should_retry_code]
        simp
    | some q =>
        rcases hmiss with hnone | ⟨q', hq', hpn⟩
        · simp at hnone
        · simp only at hq'
          obtain rfl : q = q' := by injection hq'
          simp only [should_retry_code, hpn]
          simp [Option.getD, hpn]

/-- Witness for C4: a state whose qa_result key is absent takes the
"end" edge, and a state with a failed QA below the iteration cap takes
"retry". -/
theorem C4_should_retry_code_fail_open_witness :
    should_retry_code
      { qa_result := none, iteration_count := some 1
        max_iterations := some 5 } = "end" ∧
    should_retry_code
      { qa_result := some { passed := some false }, iteration_count := some 1
        max_iterations := some 5 } = "retry" :=
  ⟨(C4_should_retry_code_fail_open
      { qa_result := none, iteration_count := some 1
        max_iterations := some 5 }).2 (Or.inl rfl),
    (C4_should_retry_code_fail_open
      { qa_result := some { passed := some false }, iteration_count := some 1
        max_iterations := some 5 }).1.mpr
      ⟨⟨{ passed := some false }, rfl, rfl⟩, by decide⟩⟩

/-- Overwriting an existing key: the lookup afterwards sees the new
value. -/
lemma alistGet_alistSet {α : Type} (l : List (String × α)) (k : String)
    (v : α) (w : α) (h : alistGet l k = some w) :
    alistGet (alistSet l k v) k = some v := by
  induction l with
  | nil => simp [alistGet] at h
  | cons hd tl ih =>
      obtain ⟨k', v'⟩ := hd
      by_cases hk : k' = k
      · simp [alistGet, alistSet, hk]
      · simp only [alistGet, alistSet, if_neg hk] at h ⊢
        exact ih h

/-- A progress-only `update_job` on an existing job: the stored job's
progress is overwritten with the clamped value and every other field is
untouched, regardless of the job's current status or progress. -/
lemma update_job_progress_only (store : InMemoryJobStore) (job_id : String)
    (job : Job) (p : ℚ) (now : Nat)
    (hget : store.get_job job_id = some job) :
    store.update_job job_id { progress := some p } now =
      (some { job with progress := max 0 (min 100 p) },
        { store with
            jobs := alistSet store.jobs job_id
              { job with progress := max 0 (min 100 p) } }) := by
  simp only [InMemoryJobStore.get_job] at hget
  simp only [InMemoryJobStore.update_job, hget, updateJobFields]

/-- A result-only `update_job` on an existing job: the stored result is
overwritten, every other field (including `error`) untouched. -/
lemma update_job_result_only (store : InMemoryJobStore) (job_id : String)
    (job : Job) (r : JDict) (now : Nat)
    (hget : store.get_job job_id = some job) :
    store.update_job job_id { result := some r } now =
      (some { job with result := some r },
        { store with
            jobs := alistSet store.jobs job_id { job with result := some r } }) := by
  simp only [InMemoryJobStore.get_job] at hget
  simp only [InMemoryJobStore.update_job, hget, updateJobFields]

/-- An error-only `update_job` with a non-empty message: the error is
recorded, status forced to FAILED, `completed_at` stamped — and the
`result` field is left exactly as it was. -/
lemma update_job_error_only (store : InMemoryJobStore) (job_id : String)
    (job : Job) (e : String) (now : Nat)
    (hget : store.get_job job_id = some job) (he : e ≠ "") :
    store.update_job job_id { error := some e } now =
      (some { job with
          error := some e
          status := JobStatusType.FAILED
          completed_at := some now },
        { store with
            jobs := alistSet store.jobs job_id
              { job with
                  error := some e
                  status := JobStatusType.FAILED
                  completed_at := some now } }) := by
  simp only [InMemoryJobStore.get_job] at hget
  simp only [InMemoryJobStore.update_job, hget, updateJobFields]
  rw [if_neg he]

/-- Counterexample to C1: a job that has reached the terminal status
COMPLETED (progress 0) is then updated with `progress=50`; the stored
progress changes from 0 to 50, so `update_job` on a terminal job is not
a no-op. -/
theorem C1_counterexample_terminal_job_mutates :
    ((((InMemoryJobStore.create_job {} "j" "p" "research" [] 0).2.update_job
        "j" { status := some JobStatusType.COMPLETED } 1).2.get_job "j").map
      Job.status = some JobStatusType.COMPLETED) ∧
    ((((InMemoryJobStore.create_job {} "j" "p" "research" [] 0).2.update_job
        "j" { status := some JobStatusType.COMPLETED } 1).2.get_job "j").map
      Job.progress = some 0) ∧
    (((((InMemoryJobStore.create_job {} "j" "p" "research" [] 0).2.update_job
        "j" { status := some JobStatusType.COMPLETED } 1).2.update_job
        "j" { progress := some 50 } 2).2.get_job "j").map
      Job.progress = some 50) ∧
    (50 : ℚ) ≠ 0 := by
  refine ⟨rfl, rfl, ?_, by norm_num⟩
  rfl

/-- C1 as amended: `update_job` never checks for a terminal status — on
a stored job whose status is Completed, Failed, or Cancelled, a
progress argument still overwrites the stored progress (clamped to
[0, 100]) and a result argument still overwrites the stored result; the
returned job is the stored job. -/
theorem C1_amended_update_ignores_terminal_status
    (store : InMemoryJobStore) (job_id : String) (job : Job) (now : Nat)
    (hget : store.get_job job_id = some job)
    (hterm : job.status = JobStatusType.COMPLETED ∨
      job.status = JobStatusType.FAILED ∨
      job.status = JobStatusType.CANCELLED) :
    (∀ p : ℚ,
      (store.update_job job_id { progress := some p } now).1 =
        some { job with progress := max 0 (min 100 p) } ∧
      (store.update_job job_id { progress := some p } now).2.get_job job_id =
        some { job with progress := max 0 (min 100 p) }) ∧
    (∀ r : JDict,
      (store.update_job job_id { result := some r } now).1 =
        some { job with result := some r }) := by
  constructor
  · intro p
    rw [update_job_progress_only store job_id job p now hget]
    refine ⟨rfl, ?_⟩
    simp only [InMemoryJobStore.get_job] at hget ⊢
    exact alistGet_alistSet store.jobs job_id _ job hget
  · intro r
    rw [update_job_result_only store job_id job r now hget]

/-- Witness for the amended C1, on a store holding a COMPLETED job with
progress 0: updating progress to 50 both returns and stores progress
50. -/
theorem C1_amended_update_ignores_terminal_status_witness :
    ((((InMemoryJobStore.create_job {} "j" "p" "research" [] 0).2.update_job
        "j" { status := some JobStatusType.COMPLETED } 1).2.update_job
        "j" { progress := some 50 } 2).1).map Job.progress = some 50 := by
  have h := (C1_amended_update_ignores_terminal_status
    ((InMemoryJobStore.create_job {} "j" "p" "research" [] 0).2.update_job
      "j" { status := some JobStatusType.COMPLETED } 1).2
    "j"
    { job_id := "j", project_id := "p", agent_type := "research"
      status := JobStatusType.COMPLETED, input_context := []
      result := none, error := none, progress := 0, created_at := 0
      started_at := none, completed_at := some 1 }
    2 rfl (Or.inl rfl)).1 50
  rw [h.1]
  norm_num

/-- Counterexample to C7: progress 50 is stored, then an update with
progress 10 lowers the stored value to 10 — stored progress is not
monotonic non-decreasing. -/
theorem C7_counterexample_progress_decreases :
    ((((InMemoryJobStore.create_job {} "j" "p" "research" [] 0).2.update_job
        "j" { progress := some 50 } 1).2.get_job "j").map
      Job.progress = some 50) ∧
    (((((InMemoryJobStore.create_job {} "j" "p" "research" [] 0).2.update_job
        "j" { progress := some 50 } 1).2.update_job
        "j" { progress := some 10 } 2).2.get_job "j").map
      Job.progress = some 10) ∧
    ¬((50 : ℚ) ≤ 10) := by
  refine ⟨rfl, rfl, by norm_num⟩

/-- C7 as amended: the store clamps each supplied progress into
[0, 100] and overwrites the stored value regardless of the previous one
— monotonicity is not enforced; separately, the cancel endpoint passes
the job's current progress back into the update, so cancellation itself
leaves progress at its last (in-range) value. -/
theorem C7_amended_progress_clamped_overwrite
    (store : InMemoryJobStore) (job_id : String) (job : Job) (now : Nat)
    (hget : store.get_job job_id = some job) :
    (∀ p : ℚ,
      ((store.update_job job_id { progress := some p } now).2.get_job
          job_id).map Job.progress = some (max 0 (min 100 p)) ∧
      0 ≤ max 0 (min 100 p) ∧ max 0 (min 100 p) ≤ 100) ∧
    (¬job.is_complete = true → 0 ≤ job.progress → job.progress ≤ 100 →
      ((cancel_job store job_id now).2.get_job job_id).map Job.progress =
        some job.progress) := by
  constructor
  · intro p
    rw [update_job_progress_only store job_id job p now hget]
    refine ⟨?_, le_max_left 0 _, ?_⟩
    · simp only [InMemoryJobStore.get_job] at hget ⊢
      rw [alistGet_alistSet store.jobs job_id _ job hget]
      rfl
    · exact max_le (by norm_num) (min_le_left 100 p)
  · intro hni h0 h100
    simp only [cancel_job, hget, hni, Bool.false_eq_true, if_false]
    simp only [InMemoryJobStore.update_job]
    simp only [InMemoryJobStore.get_job] at hget
    simp only [hget, updateJobFields]
    have hclamp : max 0 (min 100 job.progress) = job.progress := by
      rw [min_eq_right h100, max_eq_right h0]
    simp only [InMemoryJobStore.get_job]
    rw [alistGet_alistSet store.jobs job_id _ job hget]
    simp [hclamp]

/-- Witness for the amended C7 on a fresh queued job: progress 150 is
clamped and stored as 100, and cancelling the job preserves its current
progress 0. -/
theorem C7_amended_progress_clamped_overwrite_witness :
    ((((InMemoryJobStore.create_job {} "j" "p" "research" [] 0).2.update_job
        "j" { progress := some 150 } 1).2.get_job "j").map
      Job.progress = some 100) ∧
    (((cancel_job (InMemoryJobStore.create_job {} "j" "p" "research" [] 0).2
        "j" 1).2.get_job "j").map Job.progress = some 0) := by
  have h := C7_amended_progress_clamped_overwrite
    (InMemoryJobStore.create_job {} "j" "p" "research" [] 0).2 "j"
    { job_id := "j", project_id := "p", agent_type := "research"
      status := JobStatusType.QUEUED, input_context := []
      result := none, error := none, progress := 0, created_at := 0
      started_at := none, completed_at := none }
    1 rfl
  constructor
  · have h1 := (h.1 150).1
    rw [h1]
    norm_num
  · have h2 := h.2 (by decide) le_rfl (by norm_num)
    exact h2

/-- Counterexample to C8: a result is stored, then a non-empty error is
recorded; afterwards the stored job simultaneously holds the earlier
result and the error. -/
theorem C8_counterexample_result_and_error_coexist :
    ((((InMemoryJobStore.create_job {} "j" "p" "research" [] 0).2.update_job
        "j" { result := some [("files", JVal.jstr "x")] } 1).2.update_job
        "j" { error := some "LLM call failed" } 2).2.get_job "j").map
      (fun j => (j.result, j.error)) =
      some (some [("files", JVal.jstr "x")], some "LLM call failed") := by
  rfl

/-- C8 as amended: the store never clears `result` when recording an
error nor `error` when recording a result; a non-empty error forces
status FAILED and stamps `completed_at` while leaving any prior result
in place, so a stored job can carry a result and an error at the same
time. -/
theorem C8_amended_result_error_not_exclusive
    (store : InMemoryJobStore) (job_id : String) (job : Job) (now : Nat)
    (hget : store.get_job job_id = some job) :
    (∀ e : String, e ≠ "" →
      (store.update_job job_id { error := some e } now).1 =
        some { job with
            error := some e
            status := JobStatusType.FAILED
            completed_at := some now }) ∧
    (∀ r : JDict,
      (store.update_job job_id { result := some r } now).1 =
        some { job with result := some r }) := by
  constructor
  · intro e he
    rw [update_job_error_only store job_id job e now hget he]
  · intro r
    rw [update_job_result_only store job_id job r now hget]

/-- Witness for the amended C8: recording the error "boom" on a job
that already holds a result returns the job with status FAILED, the
error set, and the result still present. -/
theorem C8_amended_result_error_not_exclusive_witness :
    ((((InMemoryJobStore.create_job {} "j" "p" "research" [] 0).2.update_job
        "j" { result := some [("files", JVal.jstr "x")] } 1).2.update_job
        "j" { error := some "boom" } 2).1).map
      (fun j => (j.result, j.error, j.status)) =
      some (some [("files", JVal.jstr "x")], some "boom",
        JobStatusType.FAILED) := by
  have h := (C8_amended_result_error_not_exclusive
    ((InMemoryJobStore.create_job {} "j" "p" "research" [] 0).2.update_job
      "j" { result := some [("files", JVal.jstr "x")] } 1).2
    "j"
    { job_id := "j", project_id := "p", agent_type := "research"
      status := JobStatusType.QUEUED
      input_context := []
      result := some [("files", JVal.jstr "x")]
      error := none, progress := 0, created_at := 0
      started_at := none, completed_at := none }
    2 rfl).1 "boom" (by decide)
  rw [h]
  rfl

/-- C5 (code bug): the `JobStatusType` enum in
`src/backend/app/schemas/protocol.py` has no `cancelled` or
`waiting_for_input` member — its values are exactly queued / running /
completed / failed — although `tests/test_new_features.py`
(`test_all_statuses_are_valid`) asserts that exactly six statuses exist
and `cancel_job` in `app/api/endpoints/agents.py` sets
`JobStatusType.CANCELLED` (an `AttributeError` against the `src/` enum).
Against the six-member enum modelled from the spec and those tests, the
cancel path does transition a fresh (non-terminal) job to Cancelled, as
the claim states. -/
theorem C5_src_enum_missing_cancelled_status :
    JobStatusTypeSrc.ofValue? "cancelled" = none ∧
    JobStatusTypeSrc.ofValue? "waiting_for_input" = none ∧
    (∀ s : JobStatusTypeSrc,
      s.value = "queued" ∨ s.value = "running" ∨
      s.value = "completed" ∨ s.value = "failed") ∧
    JobStatusType.ofValue? "cancelled" = some JobStatusType.CANCELLED ∧
    (((cancel_job (InMemoryJobStore.create_job {} "j" "p" "research" [] 0).2
        "j" 1).2.get_job "j").map Job.status =
      some JobStatusType.CANCELLED) ∧
    (((cancel_job (InMemoryJobStore.create_job {} "j" "p" "research" [] 0).2
        "j" 1).1) = CancelResult.cancelled) := by
  refine ⟨rfl, rfl, ?_, rfl, rfl, rfl⟩
  intro s
  cases s
  · exact Or.inl rfl
  · exact Or.inr (Or.inl rfl)
  · exact Or.inr (Or.inr (Or.inl rfl))
  · exact Or.inr (Or.inr (Or.inr rfl))

/-- `should_retry_code` on the state shape produced by the code → qa
sequence. -/
lemma should_retry_code_concrete (b : Bool) (c m : Nat) :
    should_retry_code
      { qa_result := some { passed := some b }
        iteration_count := some c
        max_iterations := some m } =
      (if b = false ∧ c < m then "retry" else "end") := rfl

/-- Bounded-iteration invariant of the code ↔ qa loop: starting below
the cap, the final iteration count never exceeds `max_iterations`, and
it reaches the cap exactly when QA fails on every attempt strictly
before attempt `max_iterations`. -/
lemma codeQaLoop_spec_aux (qaPasses : Nat → Bool) (max_iter : Nat) :
    ∀ k count, max_iter - count ≤ k → count < max_iter →
      codeQaLoop qaPasses max_iter count ≤ max_iter ∧
      (codeQaLoop qaPasses max_iter count = max_iter ↔
        ∀ a, count < a → a < max_iter → qaPasses a = false) := by
  intro k
  induction k with
  | zero =>
      intro count hk hlt
      omega
  | succ k ih =>
      intro count hk hlt
      rw [codeQaLoop]
      by_cases hcond : qaPasses (count + 1) = false ∧ count + 1 < max_iter
      · rw [dif_pos (by rw [should_retry_code_concrete, if_pos hcond])]
        obtain ⟨hqf, hlt1⟩ := hcond
        obtain ⟨ihle, ihiff⟩ := ih (count + 1) (by omega) hlt1
        refine ⟨ihle, ?_⟩
        rw [ihiff]
        constructor
        · intro hall a ha ham
          by_cases hae : a = count + 1
          · subst hae
            exact hqf
          · exact hall a (by omega) ham
        · intro hall a ha ham
          exact hall a (by omega) ham
      · rw [dif_neg (by rw [should_retry_code_concrete, if_neg hcond]; simp)]
        refine ⟨by omega, ?_⟩
        constructor
        · intro heq a ha ham
          omega
        · intro hall
          by_cases hme : count + 1 = max_iter
          · exact hme
          · exfalso
            have hlt1 : count + 1 < max_iter := by omega
            have hq : qaPasses (count + 1) = false :=
              hall (count + 1) (by omega) hlt1
            exact hcond ⟨hq, hlt1⟩

/-- Counterexample to C6: with `max_iterations = 1` and QA passing on
the very first attempt, the pipeline still ends with
`iteration_count = 1 = max_iterations` — even though QA did not fail on
every attempt.  So "final iteration_count equals max_iterations iff QA
failed on every attempt" is false in the only-if direction. -/
theorem C6_counterexample_pass_on_last_attempt :
    codeQaLoop (fun _ => true) 1 0 = 1 ∧ (fun _ : Nat => true) 1 = true := by
  constructor
  · rw [codeQaLoop]
    rw [dif_neg (by rw [should_retry_code_concrete]; simp)]
  · rfl

/-- C6 as amended: for `max_iterations ≥ 1`, the final
`iteration_count` of the code ↔ qa loop (started at 0, as
`get_initial_state` does) is at most `max_iterations`, and it equals
`max_iterations` iff QA failed on every attempt strictly before attempt
`max_iterations` — the verdict of the final attempt, if it is reached,
does not matter. -/
theorem C6_amended_iteration_count_bound (qaPasses : Nat → Bool)
    (max_iter : Nat) (h1 : 1 ≤ max_iter) :
    codeQaLoop qaPasses max_iter 0 ≤ max_iter ∧
    (codeQaLoop qaPasses max_iter 0 = max_iter ↔
      ∀ a, 1 ≤ a → a < max_iter → qaPasses a = false) := by
  obtain ⟨hle, hiff⟩ := codeQaLoop_spec_aux qaPasses max_iter max_iter 0
    (by omega) (by omega)
  refine ⟨hle, ?_⟩
  rw [hiff]
  constructor
  · intro hall a ha ham
    exact hall a (by omega) ham
  · intro hall a ha ham
    exact hall a (by omega) ham

/-- Witness for the amended C6, the spec's Scenario B shape: QA fails
attempts 1-2 and passes attempt 3 with `max_iterations = 5`; the final
iteration count is bounded by 5. -/
theorem C6_amended_iteration_count_bound_witness :
    (1 : Nat) ≤ 5 ∧ codeQaLoop (fun a => decide (3 ≤ a)) 5 0 ≤ 5 :=
  ⟨by decide,
    (C6_amended_iteration_count_bound (fun a => decide (3 ≤ a)) 5
      (by decide)).1⟩

/-- Trace of the retry loop when attempts `a .. k-1` raise transient
errors and attempt `k ≤ max_retries` succeeds: the loop makes exactly
the attempts up to `k` and sleeps once after each failed attempt, for
`min(base_delay * 2 ** (attempt-1), max_delay) + jitter(attempt)`. -/
lemma resilientLoop_transient_success (max_retries : Nat) (b M : ℚ)
    (outcomes : Nat → AttemptOutcome) (jitter : Nat → ℚ) (k : Nat)
    (hk : k ≤ max_retries) (houts : outcomes k = AttemptOutcome.success) :
    ∀ n a, k - a ≤ n → 1 ≤ a → a ≤ k →
      (∀ i, a ≤ i → i < k → outcomes i = AttemptOutcome.transientErr) →
      resilientLoop max_retries b M outcomes jitter a =
        ⟨k, (List.range (k - a)).map
            (fun j => backoffDelay b M (a + j) + jitter (a + j)),
          RetryOutcome.ok⟩ := by
  intro n
  induction n with
  | zero =>
      intro a hn h1 hak htrans
      have hae : a = k := by omega
      subst hae
      rw [resilientLoop, houts]
      simp
  | succ n ih =>
      intro a hn h1 hak htrans
      by_cases hae : a = k
      · subst hae
        rw [resilientLoop, houts]
        simp
      · have halt : a < k := by omega
        have hta : outcomes a = AttemptOutcome.transientErr :=
          htrans a le_rfl halt
        rw [resilientLoop, hta]
        rw [dif_neg (by omega)]
        rw [ih (a + 1) (by omega) (by omega) (by omega)
          (fun i hi hik => htrans i (by omega) hik)]
        have hrange : k - a = (k - (a + 1)) + 1 := by omega
        rw [hrange, List.range_succ_eq_map]
        simp only [List.map_cons, List.map_map]
        have hhead : backoffDelay b M (a + 0) + jitter (a + 0) =
            backoffDelay b M a + jitter a := by
          simp
        have htail : List.map
            ((fun j => backoffDelay b M (a + j) + jitter (a + j)) ∘ Nat.succ)
            (List.range (k - (a + 1))) =
            List.map (fun j => backoffDelay b M (a + 1 + j) + jitter (a + 1 + j))
            (List.range (k - (a + 1))) := by
          apply List.map_congr_left
          intro j _
          simp only [Function.comp_apply, Nat.succ_eq_add_one]
          have hadd : a + (j + 1) = a + 1 + j := by omega
          rw [hadd]
        rw [hhead, htail]


/-- Trace of the retry loop when every attempt raises a transient
error: all `max_retries` attempts are made and the final attempt's
error is re-raised. -/
lemma resilientLoop_all_transient (max_retries : Nat) (b M : ℚ)
    (outcomes : Nat → AttemptOutcome) (jitter : Nat → ℚ) :
    ∀ n a, max_retries - a ≤ n → 1 ≤ a → a ≤ max_retries →
      (∀ i, a ≤ i → i ≤ max_retries →
        outcomes i = AttemptOutcome.transientErr) →
      resilientLoop max_retries b M outcomes jitter a =
        ⟨max_retries, (List.range (max_retries - a)).map
            (fun j => backoffDelay b M (a + j) + jitter (a + j)),
          RetryOutcome.raisedTransient⟩ := by
  intro n
  induction n with
  | zero =>
      intro a hn h1 hak htrans
      have hae : a = max_retries := by omega
      rw [resilientLoop, htrans a le_rfl hak]
      rw [dif_pos (by omega)]
      subst hae
      simp
  | succ n ih =>
      intro a hn h1 hak htrans
      by_cases hae : a = max_retries
      · rw [resilientLoop, htrans a le_rfl hak]
        rw [dif_pos (by omega)]
        subst hae
        simp
      · have halt : a < max_retries := by omega
        rw [resilientLoop, htrans a le_rfl hak]
        rw [dif_neg (by omega)]
        rw [ih (a + 1) (by omega) (by omega) (by omega)
          (fun i hi hik => htrans i (by omega) hik)]
        have hrange : max_retries - a = (max_retries - (a + 1)) + 1 := by omega
        rw [hrange, List.range_succ_eq_map]
        simp only [List.map_cons, List.map_map]
        have hhead : backoffDelay b M (a + 0) + jitter (a + 0) =
            backoffDelay b M a + jitter a := by
          simp
        have htail : List.map
            ((fun j => backoffDelay b M (a + j) + jitter (a + j)) ∘ Nat.succ)
            (List.range (max_retries - (a + 1))) =
            List.map (fun j => backoffDelay b M (a + 1 + j) + jitter (a + 1 + j))
            (List.range (max_retries - (a + 1))) := by
          apply List.map_congr_left
          intro j _
          simp only [Function.comp_apply, Nat.succ_eq_add_one]
          have hadd : a + (j + 1) = a + 1 + j := by omega
          rw [hadd]
        rw [hhead, htail]


/-- Below the cap-breaking index, the computed backoff is the pure
exponential term. -/
lemma backoffDelay_uncapped (b M : ℚ) (a k : Nat) (hb : 0 < b)
    (ha1 : 1 ≤ a) (hak : a ≤ k - 2) (hk3 : 3 ≤ k)
    (hcap : 13/10 * (b * 2 ^ (k - 3)) < M) :
    backoffDelay b M a = b * 2 ^ (a - 1) ∧ b * 2 ^ (a - 1) ≤ b * 2 ^ (k - 3) := by
  have hexp : a - 1 ≤ k - 3 := by omega
  have hple : (2 : ℚ) ^ (a - 1) ≤ 2 ^ (k - 3) :=
    pow_le_pow_right (by norm_num) hexp
  have hmle : b * 2 ^ (a - 1) ≤ b * 2 ^ (k - 3) :=
    mul_le_mul_of_nonneg_left hple (le_of_lt hb)
  have hpos : (0 : ℚ) < b * 2 ^ (k - 3) :=
    mul_pos hb (pow_pos (by norm_num) _)
  have hltM : b * 2 ^ (a - 1) < M := by nlinarith
  exact ⟨min_eq_left (le_of_lt hltM), hmle⟩


/-- The inter-attempt delays are strictly increasing provided the
jitter stays within its 30% bound and the exponential term stays below
the cap until at most the final delay
(`13/10 * base_delay * 2 ** (k-3) < max_delay`). -/
lemma delays_strict_increase (b M : ℚ) (jitter : Nat → ℚ) (k : Nat)
    (hb : 0 < b)
    (hjit : ∀ a, 0 ≤ jitter a ∧ jitter a ≤ 3/10 * backoffDelay b M a)
    (hcap : 3 ≤ k → 13/10 * (b * 2 ^ (k - 3)) < M) :
    List.Chain' (· < ·)
      ((List.range (k - 1)).map
        (fun j => backoffDelay b M (j + 1) + jitter (j + 1))) := by
  match hke : k - 1 with
  | 0 => simp
  | 1 =>
      have h1 : List.range 1 = [0] := rfl
      rw [h1]
      simp
  | m + 2 =>
      have hk3 : 3 ≤ k := by omega
      have hcap' := hcap hk3
      rw [List.chain'_map]
      rw [List.chain'_range_succ]
      intro i him
      -- attempts a = i + 1 and a + 1 = i + 2, with a ≤ k - 2
      set a := i + 1 with ha
      have hak : a ≤ k - 2 := by omega
      obtain ⟨hda, hdle⟩ := backoffDelay_uncapped b M a k hb (by omega) hak
        hk3 hcap'
      obtain ⟨hj0, hjle⟩ := hjit a
      obtain ⟨hj0', _⟩ := hjit (a + 1)
      have hlhs : backoffDelay b M a + jitter a ≤ 13/10 * (b * 2 ^ (a - 1)) := by
        rw [hda] at hjle ⊢
        nlinarith
      have hpos : (0 : ℚ) < b * 2 ^ (a - 1) :=
        mul_pos hb (pow_pos (by norm_num) _)
      have hnext : 13/10 * (b * 2 ^ (a - 1)) < backoffDelay b M (a + 1) := by
        have hexp : a + 1 - 1 = (a - 1) + 1 := by omega
        apply lt_min
        · rw [hexp, pow_succ]
          nlinarith
        · calc 13/10 * (b * 2 ^ (a - 1)) ≤ 13/10 * (b * 2 ^ (k - 3)) := by
                nlinarith
            _ < M := hcap'
      have : backoffDelay b M a + jitter a < backoffDelay b M (a + 1) +
          jitter (a + 1) := by
        calc backoffDelay b M a + jitter a ≤ 13/10 * (b * 2 ^ (a - 1)) := hlhs
          _ < backoffDelay b M (a + 1) := hnext
          _ ≤ backoffDelay b M (a + 1) + jitter (a + 1) := by nlinarith
      simpa [ha] using this


/-- Counterexample to C3: with `base_delay = max_delay = 30`,
`max_retries = 3`, transient failures on attempts 1-2 and success on
attempt 3, and jitter draws 9 then 0 (both within the 30% bound, since
`0.3 * 30 = 9`), the two inter-attempt delays are 39 then 30 — not
strictly increasing.  Once the exponential backoff saturates at
`max_delay`, jitter alone determines the order. -/
theorem C3_counterexample_capped_delays_not_increasing :
    resilient_llm_call 3 30 30
      (fun i => if i = 3 then AttemptOutcome.success
        else AttemptOutcome.transientErr)
      (fun i => if i = 1 then 9 else 0) =
      ⟨3, [39, 30], RetryOutcome.ok⟩ ∧
    ((0 : ℚ) ≤ 9 ∧ (9 : ℚ) ≤ 3/10 * backoffDelay 30 30 1) ∧
    ¬ List.Chain' (· < ·) ([39, 30] : List ℚ) := by
  have h3 : resilientLoop 3 30 30
      (fun i => if i = 3 then AttemptOutcome.success
        else AttemptOutcome.transientErr)
      (fun i => if i = 1 then 9 else 0) 3 =
      ⟨3, [], RetryOutcome.ok⟩ := by
    rw [resilientLoop]
    norm_num
  have h2 : resilientLoop 3 30 30
      (fun i => if i = 3 then AttemptOutcome.success
        else AttemptOutcome.transientErr)
      (fun i => if i = 1 then 9 else 0) 2 =
      ⟨3, [30], RetryOutcome.ok⟩ := by
    rw [resilientLoop]
    norm_num [backoffDelay, h3]
  have h1 : resilientLoop 3 30 30
      (fun i => if i = 3 then AttemptOutcome.success
        else AttemptOutcome.transientErr)
      (fun i => if i = 1 then 9 else 0) 1 =
      ⟨3, [39, 30], RetryOutcome.ok⟩ := by
    rw [resilientLoop]
    norm_num [backoffDelay, h2]
  refine ⟨?_, ⟨by norm_num, by norm_num [backoffDelay]⟩, ?_⟩
  · rw [resilient_llm_call, if_neg (by norm_num)]
    exact h1
  · intro hchain
    rw [List.chain'_cons] at hchain
    norm_num at hchain


/-- C3 as amended: a permanent error on the first attempt makes
exactly one attempt and propagates; transient failures followed by a
success on attempt `k ≤ max_retries` make exactly `k` attempts whose
inter-attempt delays each equal
`min(base_delay * 2 ** (attempt-1), max_delay)` plus the jitter drawn
for that attempt, and those delays are strictly increasing provided the
jitter stays within its 30% bound and
`13/10 * base_delay * 2 ** (k-3) < max_delay` (the cap binds at most
the final delay); after `max_retries` transient failures the final
attempt's error propagates. -/
theorem C3_amended_retry_backoff (max_retries k : Nat) (b M : ℚ)
    (outcomes : Nat → AttemptOutcome) (jitter : Nat → ℚ)
    (hmr : 1 ≤ max_retries) :
    (outcomes 1 = AttemptOutcome.permanentErr →
      resilient_llm_call max_retries b M outcomes jitter =
        ⟨1, [], RetryOutcome.raisedPermanent⟩) ∧
    (1 ≤ k → k ≤ max_retries →
      (∀ i, 1 ≤ i → i < k → outcomes i = AttemptOutcome.transientErr) →
      outcomes k = AttemptOutcome.success →
      resilient_llm_call max_retries b M outcomes jitter =
        ⟨k, (List.range (k - 1)).map
            (fun j => backoffDelay b M (j + 1) + jitter (j + 1)),
          RetryOutcome.ok⟩ ∧
      (0 < b →
        (∀ a, 0 ≤ jitter a ∧ jitter a ≤ 3/10 * backoffDelay b M a) →
        (3 ≤ k → 13/10 * (b * 2 ^ (k - 3)) < M) →
        List.Chain' (· < ·)
          ((List.range (k - 1)).map
            (fun j => backoffDelay b M (j + 1) + jitter (j + 1))))) ∧
    ((∀ i, 1 ≤ i → i ≤ max_retries →
        outcomes i = AttemptOutcome.transientErr) →
      resilient_llm_call max_retries b M outcomes jitter =
        ⟨max_retries, (List.range (max_retries - 1)).map
            (fun j => backoffDelay b M (j + 1) + jitter (j + 1)),
          RetryOutcome.raisedTransient⟩) := by
  refine ⟨?_, ?_, ?_⟩
  · intro hperm
    rw [resilient_llm_call, if_neg (by omega), resilientLoop, hperm]
  · intro hk1 hkmr htrans hsucc
    constructor
    · rw [resilient_llm_call, if_neg (by omega)]
      rw [resilientLoop_transient_success max_retries b M outcomes jitter k
        hkmr hsucc k 1 (by omega) le_rfl hk1
        (fun i hi hik => htrans i hi hik)]
      have hmap : ∀ j : Nat, 1 + j = j + 1 := by omega
      congr 1
      apply List.map_congr_left
      intro j _
      rw [hmap j]
    · intro hb hjit hcap
      exact delays_strict_increase b M jitter k hb hjit hcap
  · intro htrans
    rw [resilient_llm_call, if_neg (by omega)]
    rw [resilientLoop_all_transient max_retries b M outcomes jitter
      max_retries 1 (by omega) le_rfl hmr htrans]
    congr 1
    apply List.map_congr_left
    intro j _
    have : 1 + j = j + 1 := by omega
    rw [this]


/-- Witness for the amended C3 at `max_retries = 3`,
`base_delay = 2`, `max_delay = 30`, zero jitter: a transient failure on
attempt 1 and success on attempt 2 yield exactly 2 attempts and the
single delay 2. -/
theorem C3_amended_retry_backoff_witness :
    (1 : Nat) ≤ 3 ∧
    resilient_llm_call 3 2 30
      (fun i => if i = 2 then AttemptOutcome.success
        else AttemptOutcome.transientErr)
      (fun _ => 0) = ⟨2, [2], RetryOutcome.ok⟩ := by
  have h := (C3_amended_retry_backoff 3 2 2 30
    (fun i => if i = 2 then AttemptOutcome.success
      else AttemptOutcome.transientErr)
    (fun _ => 0) (by norm_num)).2.1
    (by norm_num) (by norm_num)
    (fun i hi hik => by
      have hi1 : i = 1 := by omega
      subst hi1
      norm_num)
    (by norm_num)
  refine ⟨by norm_num, ?_⟩
  rw [h.1]
  have hr : List.range (2 - 1) = [0] := rfl
  rw [hr]
  norm_num [backoffDelay]

/-- Each digit below 10 renders to a character that parses back to
itself. -/
lemma charToDigit?_natDigitToChar (d : Nat) (hd : d < 10) :
    charToDigit? (natDigitToChar d) = some d := by
  interval_cases d <;> rfl

/-- A rendered digit list parses back to itself. -/
lemma parseDigits_map_natDigitToChar (l : List Nat)
    (hl : ∀ d ∈ l, d < 10) :
    parseDigits (l.map natDigitToChar) = some l := by
  induction l with
  | nil => rfl
  | cons d ds ih =>
      simp only [List.map_cons, parseDigits]
      rw [charToDigit?_natDigitToChar d (hl d (by simp)),
        ih (fun x hx => hl x (by simp [hx]))]

/-- A rendered timestamp is never the empty (falsy) string. -/
lemma isoformat_data_ne_nil (t : Nat) : (isoformat t).data ≠ [] := by
  by_cases ht : t = 0
  · subst ht
    decide
  · rw [isoformat, if_neg ht]
    have hne : Nat.digits 10 t ≠ [] := Nat.digits_ne_nil_iff_ne_zero.mpr ht
    simpa using hne

/-- The timestamp codec round-trips: parsing a rendered timestamp
recovers it. -/
lemma fromisoformat_isoformat (t : Nat) :
    fromisoformat (isoformat t) = some t := by
  by_cases ht : t = 0
  · subst ht
    decide
  · rw [isoformat, if_neg ht]
    have hdig : ∀ d ∈ (Nat.digits 10 t).reverse, d < 10 := by
      intro d hd
      exact Nat.digits_lt_base (by norm_num) (List.mem_reverse.mp hd)
    cases hd : (Nat.digits 10 t).reverse with
    | nil =>
        exfalso
        have hne : Nat.digits 10 t ≠ [] := Nat.digits_ne_nil_iff_ne_zero.mpr ht
        simp at hd
        exact hne hd
    | cons d ds =>
        have hall : ∀ x ∈ d :: ds, x < 10 := by
          rw [← hd]
          exact hdig
        simp only [List.map_cons, fromisoformat]
        have hparse := parseDigits_map_natDigitToChar (d :: ds) hall
        simp only [List.map_cons] at hparse
        rw [hparse]
        have hrev : (d :: ds).reverse = Nat.digits 10 t := by
          rw [← hd, List.reverse_reverse]
        show some (Nat.ofDigits 10 (d :: ds).reverse) = some t
        rw [hrev, Nat.ofDigits_digits]

/-- The optional-timestamp branch of `Job.deserialize` inverts the
optional rendering done by `Job.serialize`. -/
lemma parseOptionalTs_map_isoformat (o : Option Nat) :
    parseOptionalTs (o.map isoformat) = some o := by
  cases o with
  | none => rfl
  | some t =>
      show parseOptionalTs (some (isoformat t)) = some (some t)
      simp only [parseOptionalTs]
      rw [if_neg (isoformat_data_ne_nil t), fromisoformat_isoformat t]
      rfl

/-- The `created_at` branch of `Job.deserialize` inverts the rendering
(the `utcnow` fallback is never taken on a serialized job). -/
lemma parseCreatedAt_isoformat (t now : Nat) :
    parseCreatedAt (some (isoformat t)) now = some t := by
  simp only [parseCreatedAt]
  rw [if_neg (isoformat_data_ne_nil t), fromisoformat_isoformat t]

/-- The enum constructor inverts `.value`. -/
lemma ofValue?_value (st : JobStatusType) :
    JobStatusType.ofValue? st.value = some st := by
  cases st <;> rfl

/-- C10: deserializing a serialized job reconstructs an equal job —
every field (ids, agent_type, status, input_context, result, error,
progress and the three timestamps) is preserved.  The JSON string layer
(`json.dumps`/`json.loads`) is the identity on the representable
dictionary, which is the claim's hypothesis, so the round trip is
stated at the dictionary level. -/
theorem C10_serialize_deserialize_round_trip (j : Job) (now : Nat) :
    Job.deserialize (Job.serialize j) now = some j := by
  obtain ⟨jid, pid, atype, st, ic, res, err, prog, ca, sa, co⟩ := j
  simp only [Job.serialize, Job.deserialize, ofValue?_value,
    parseCreatedAt_isoformat, parseOptionalTs_map_isoformat]
